import Mathlib

/-!
Shallow embedding of the DIFFYE-ctf-bot progress-and-scoring ledger
(`database_manager.py`, flag handling and availability gate of `bot.py`).

The relational state (tables `users`, `progress`, `statistics`) is modelled
as lists of rows; each SQL statement issued by the code becomes one pure
function on that state.  `check_flag` issues its three statements through
separate `execute_one` / `execute_command` calls (each auto-committed on its
own connection), so the embedding threads a fault oracle `err : Nat → Bool`
whose value at `k` tells whether the k-th storage call of the run raises;
a raised call leaves the state produced by the calls already committed, and
the surrounding `try/except` turns the exception into the `'error'` result.
-/

/-- One row of the `progress` table (an Attempt): `database_manager.py`,
`init_db`, with `UNIQUE(user_id, challenge_id, flag_submitted)`. -/
structure AttemptRow where
  user_id : Nat
  challenge_id : Nat
  flag_submitted : String
  is_correct : Bool
  submission_date : Nat
deriving DecidableEq, Repr

/-- One row of the `statistics` table: `database_manager.py`, `init_db`. -/
structure StatsRow where
  user_id : Nat
  challenges_completed : Nat
  total_attempts : Nat
  correct_attempts : Nat
  incorrect_attempts : Nat
  last_activity : Nat
  total_time_minutes : Nat
  average_attempts_per_challenge : Nat
deriving DecidableEq, Repr

/-- One row of the `users` table: `database_manager.py`, `init_db`. -/
structure UserRow where
  user_id : Nat
  username : String
  full_name : String
  registration_date : Nat
  is_active : Bool
  email : Option String
  phone : Option String
  organization : Option String
deriving DecidableEq, Repr

/-- The database state: the three tables touched by the ledger code. -/
structure DBState where
  users : List UserRow
  progress : List AttemptRow
  statistics : List StatsRow
deriving DecidableEq, Repr

/-- Result values returned by `Database.check_flag` (the Python strings
`'correct'`, `'incorrect'`, `'already_completed'`, `'error'`). -/
inductive SubmitResult where
  | correct
  | incorrect
  | already_completed
  | error
deriving DecidableEq, Repr

/-- Python `str.upper()` restricted to the ASCII case mapping, applied
characterwise (all flags in the catalog are ASCII). -/
def pyUpper (s : String) : String :=
  ⟨s.data.map Char.toUpper⟩

/-- Python whitespace for `str.strip()` (ASCII range). -/
def isPySpace (c : Char) : Bool :=
  c == ' ' || c == '\t' || c == '\n' || c == '\r' || c == '\x0b' || c == '\x0c'

/-- Python `str.strip()`: drop whitespace from both ends. -/
def pyStrip (s : String) : String :=
  ⟨((s.data.dropWhile isPySpace).reverse.dropWhile isPySpace).reverse⟩

/-- The correctness test of `Database.check_flag` (database_manager.py:247-251):
`flag.upper() in [f.upper() for f in challenge_flags]`.  The single-string
branch of the code is the singleton-list case. -/
def checkIsCorrect (challenge_flags : List String) (flag : String) : Bool :=
  (challenge_flags.map pyUpper).contains (pyUpper flag)

/-- The classification performed by `process_flag` (bot.py:485-498) on the raw
message text: `flag = update.message.text.strip()` followed by
`flag.upper() in [f.upper() for f in flag_list]`. -/
def process_flag_is_correct (flag_list : List String) (text : String) : Bool :=
  checkIsCorrect flag_list (pyStrip text)

/-- The `SELECT * FROM progress WHERE user_id = $1 AND challenge_id = $2 AND
is_correct = TRUE` lookup of `check_flag` (database_manager.py:233-237). -/
def existingCorrect (db : DBState) (uid cid : Nat) : Option AttemptRow :=
  db.progress.find? fun r => r.user_id == uid && r.challenge_id == cid && r.is_correct

/-- The `INSERT INTO progress ... ON CONFLICT (user_id, challenge_id,
flag_submitted) DO NOTHING` statement (database_manager.py:254-258):
appends the row unless one with the same key triple already exists. -/
def insertAttempt (db : DBState) (uid cid : Nat) (flag : String) (isc : Bool)
    (now : Nat) : DBState :=
  if db.progress.any (fun r =>
      r.user_id == uid && r.challenge_id == cid && r.flag_submitted == flag) then
    db
  else
    { db with progress := db.progress ++ [⟨uid, cid, flag, isc, now⟩] }

/-- `COUNT(DISTINCT challenge_id) FROM progress WHERE user_id = $1 AND
is_correct = TRUE` (the subquery of the correct-branch statistics update). -/
def challengesCompletedCount (db : DBState) (uid : Nat) : Nat :=
  (((db.progress.filter fun r => r.user_id == uid && r.is_correct).map
    (·.challenge_id)).dedup).length

/-- The correct-branch `UPDATE statistics` of `check_flag`
(database_manager.py:261-273): recompute `challenges_completed` from the
`progress` rows, increment `total_attempts` and `correct_attempts`, refresh
`last_activity`, on every row with the given `user_id`. -/
def updateStatsCorrect (db : DBState) (uid now : Nat) : DBState :=
  { db with statistics := db.statistics.map fun s =>
      if s.user_id == uid then
        { s with
          challenges_completed := challengesCompletedCount db uid
          total_attempts := s.total_attempts + 1
          correct_attempts := s.correct_attempts + 1
          last_activity := now }
      else s }

/-- The incorrect-branch `UPDATE statistics` of `check_flag`
(database_manager.py:275-282). -/
def updateStatsIncorrect (db : DBState) (uid now : Nat) : DBState :=
  { db with statistics := db.statistics.map fun s =>
      if s.user_id == uid then
        { s with
          total_attempts := s.total_attempts + 1
          incorrect_attempts := s.incorrect_attempts + 1
          last_activity := now }
      else s }

/-- `Database.check_flag` (database_manager.py:230-288).  The three storage
calls of a run are, in order: the prior-correct lookup (`err 0`), the Attempt
insert (`err 1` raising before the insert commits), and the statistics update
(`err 2` raising after the insert already committed).  Any raised call is
caught by the surrounding `except` and turned into the `'error'` result,
leaving whatever the earlier auto-committed statements already wrote. -/
def check_flag (err : Nat → Bool) (challenge_flags : List String)
    (db : DBState) (uid cid : Nat) (flag : String) (now : Nat) :
    SubmitResult × DBState :=
  if err 0 then (.error, db)
  else if (existingCorrect db uid cid).isSome then (.already_completed, db)
  else
    let is_correct := checkIsCorrect challenge_flags flag
    if err 1 then (.error, db)
    else
      let db1 := insertAttempt db uid cid flag is_correct now
      if err 2 then (.error, db1)
      else if is_correct then (.correct, updateStatsCorrect db1 uid now)
      else (.incorrect, updateStatsIncorrect db1 uid now)

/-- The no-fault oracle: every storage call succeeds. -/
def noErr : Nat → Bool := fun _ => false

/-- First `statistics` row of a user (primary key, so at most one exists). -/
def getStats (db : DBState) (uid : Nat) : Option StatsRow :=
  db.statistics.find? fun s => s.user_id == uid

/-- Number of `progress` rows with the given content triple. -/
def countRows (db : DBState) (uid cid : Nat) (flag : String) : Nat :=
  (db.progress.filter fun r =>
    r.user_id == uid && r.challenge_id == cid && r.flag_submitted == flag).length

/-- `get_challenge_availability_date` (bot.py:218-223): challenge `0` unlocks
one day before the event start, challenge `k ≥ 1` unlocks `k - 1` days after
it.  Timestamps are integers in arbitrary units; `one_day` is the length of
`timedelta(days=1)` in those units. -/
def get_challenge_availability_date (start_date one_day : Int) (cid : Nat) : Int :=
  if cid = 0 then start_date - one_day
  else start_date + (cid - 1 : Nat) * one_day

/-- `is_challenge_available` (bot.py:225-229): compare the current time with
the per-challenge availability date. -/
def is_challenge_available (start_date one_day now : Int) (cid : Nat) : Bool :=
  decide (get_challenge_availability_date start_date one_day cid ≤ now)

/-- `Database.register_user` (database_manager.py:208-227): one transaction
with an upsert on `users` (on conflict update only `username`, `full_name`,
`is_active`) and an `INSERT ... ON CONFLICT (user_id) DO NOTHING` on
`statistics` (new rows take the schema defaults, seeded with `now` for the
timestamp columns). -/
def register_user (db : DBState) (uid : Nat) (username full_name : String)
    (now : Nat) : DBState :=
  let users' :=
    if db.users.any (fun u => u.user_id == uid) then
      db.users.map fun u =>
        if u.user_id == uid then
          { u with username := username, full_name := full_name, is_active := true }
        else u
    else
      db.users ++ [{ user_id := uid, username := username, full_name := full_name,
                     registration_date := now, is_active := true,
                     email := none, phone := none, organization := none }]
  let statistics' :=
    if db.statistics.any (fun s => s.user_id == uid) then db.statistics
    else
      db.statistics ++ [{ user_id := uid, challenges_completed := 0,
                          total_attempts := 0, correct_attempts := 0,
                          incorrect_attempts := 0, last_activity := now,
                          total_time_minutes := 0,
                          average_attempts_per_challenge := 0 }]
  { db with users := users', statistics := statistics' }

/-- The row shape of the `get_user_progress` stats query:
`SELECT s.*, u.username, u.full_name FROM statistics s JOIN users u ...`. -/
structure ProgressStats where
  stats : StatsRow
  username : String
  full_name : String
deriving DecidableEq, Repr

/-- `Database.get_user_progress` (database_manager.py:291-315): two reads
inside one `try`; `e1`/`e2` tell whether the first/second raises, in which
case the `except` returns `{'stats': None, 'completed_challenges': []}`.
The completed list is `SELECT DISTINCT challenge_id ... ORDER BY challenge_id`
over the user's correct Attempts. -/
def get_user_progress (e1 e2 : Bool) (db : DBState) (uid : Nat) :
    Option ProgressStats × List Nat :=
  if e1 || e2 then (none, [])
  else
    let stats :=
      match getStats db uid, db.users.find? (fun u => u.user_id == uid) with
      | some s, some u => some ⟨s, u.username, u.full_name⟩
      | _, _ => none
    let completed :=
      (((db.progress.filter fun r => r.user_id == uid && r.is_correct).map
        (·.challenge_id)).dedup).insertionSort (· ≤ ·)
    (stats, completed)

/-- The row shape of the `get_leaderboard` query:
`SELECT u.full_name, s.challenges_completed, s.total_attempts,
MIN(p.submission_date) as first_completion`. -/
structure LeaderRow where
  full_name : String
  challenges_completed : Nat
  total_attempts : Nat
  first_completion : Option Nat
deriving DecidableEq, Repr

/-- The `GROUP BY` keys of the `get_leaderboard` query: the distinct tuples
`(full_name, challenges_completed, total_attempts)` over the `users` ×
`statistics` join (`statistics.user_id` is a primary key, so the join pairs
each user with its first matching row) restricted by
`WHERE s.challenges_completed > 0`. -/
def joinedKeys (db : DBState) : List (String × Nat × Nat) :=
  (db.users.filterMap fun u =>
    (db.statistics.find? fun s => s.user_id == u.user_id).bind fun s =>
      if 0 < s.challenges_completed then
        some (u.full_name, s.challenges_completed, s.total_attempts)
      else none).dedup

/-- The ids of the users joined into the group of one key. -/
def groupUserIds (db : DBState) (k : String × Nat × Nat) : List Nat :=
  db.users.filterMap fun u =>
    match db.statistics.find? fun s => s.user_id == u.user_id with
    | some s =>
        if u.full_name == k.1 && s.challenges_completed == k.2.1 &&
           s.total_attempts == k.2.2 && decide (0 < s.challenges_completed) then
          some u.user_id
        else none
    | none => none

/-- `MIN(p.submission_date)` over the group's `LEFT JOIN progress p ON
u.user_id = p.user_id AND p.is_correct = TRUE` rows; `none` is SQL `NULL`
(a group all of whose users have no correct Attempt). -/
def groupFirstCompletion (db : DBState) (k : String × Nat × Nat) : Option Nat :=
  ((db.progress.filter fun r =>
      r.is_correct && (groupUserIds db k).contains r.user_id).map
    (·.submission_date)).min?

/-- One output row of the `get_leaderboard` query for a group key. -/
def groupRow (db : DBState) (k : String × Nat × Nat) : LeaderRow :=
  ⟨k.1, k.2.1, k.2.2, groupFirstCompletion db k⟩

/-- SQL `ORDER BY ... ASC` on a nullable column: `NULL` sorts last. -/
def sqlDateLeB : Option Nat → Option Nat → Bool
  | some a, some b => decide (a ≤ b)
  | some _, none => true
  | none, some _ => false
  | none, none => true

/-- The `ORDER BY s.challenges_completed DESC, first_completion ASC` order of
the `get_leaderboard` query. -/
def leaderboardOrder (a b : LeaderRow) : Prop :=
  b.challenges_completed < a.challenges_completed ∨
    (a.challenges_completed = b.challenges_completed ∧
      sqlDateLeB a.first_completion b.first_completion = true)

instance : DecidableRel leaderboardOrder := fun _ _ =>
  inferInstanceAs (Decidable (_ ∨ _ ∧ _))

/-- `Database.get_leaderboard` (database_manager.py:317-334): the grouped,
ordered query truncated by `LIMIT 10`; a raised storage call (`e`) degrades
to the empty list.  The embedding realises `ORDER BY` with a deterministic
stable sort, which is one admissible ordering of tied rows. -/
def get_leaderboard (e : Bool) (db : DBState) : List LeaderRow :=
  if e then []
  else (((joinedKeys db).map (groupRow db)).insertionSort leaderboardOrder).take 10

/-- The re-sort applied by the presentation layer (bot.py:602-624):
`ranking.sort(key=lambda x: (-x['challenges_completed'], x['total_attempts']))`,
a stable sort on completions descending then total attempts ascending. -/
def botOrder (a b : LeaderRow) : Prop :=
  b.challenges_completed < a.challenges_completed ∨
    (a.challenges_completed = b.challenges_completed ∧
      a.total_attempts ≤ b.total_attempts)

instance : DecidableRel botOrder := fun _ _ =>
  inferInstanceAs (Decidable (_ ∨ _ ∧ _))

/-- The ranking as presented by the `leaderboard` handler (bot.py:602-624):
fetch `get_leaderboard`, re-sort in place by `(-completed, attempts)`, and
display `ranking[:10]`. -/
def leaderboard_presented (e : Bool) (db : DBState) : List LeaderRow :=
  ((get_leaderboard e db).insertionSort botOrder).take 10

/-! ### Sample states for concrete evaluations -/

/-- A freshly registered user `1` with zeroed statistics and no attempts. -/
def dbReg : DBState :=
  { users := [{ user_id := 1, username := "u1", full_name := "User One",
                registration_date := 0, is_active := true,
                email := none, phone := none, organization := none }]
    progress := []
    statistics := [{ user_id := 1, challenges_completed := 0, total_attempts := 0,
                     correct_attempts := 0, incorrect_attempts := 0,
                     last_activity := 0, total_time_minutes := 0,
                     average_attempts_per_challenge := 0 }] }

/-- User `1` already has a correct Attempt for challenge `0`. -/
def dbSolved : DBState :=
  { users := dbReg.users
    progress := [{ user_id := 1, challenge_id := 0, flag_submitted := "PFA",
                   is_correct := true, submission_date := 3 }]
    statistics := [{ user_id := 1, challenges_completed := 1, total_attempts := 1,
                     correct_attempts := 1, incorrect_attempts := 0,
                     last_activity := 3, total_time_minutes := 0,
                     average_attempts_per_challenge := 0 }] }

/-! ### C3: idempotent short-circuit on an already-solved challenge -/

/-- C3: if a prior correct Attempt exists for `(user_id, challenge_id)`,
`check_flag` returns `already_completed` and leaves the database untouched —
no Attempt insert, no statistics mutation — whatever text was submitted. -/
theorem check_flag_already_completed_no_write (fl : List String) (db : DBState)
    (uid cid : Nat) (flag : String) (now : Nat)
    (h : (existingCorrect db uid cid).isSome = true) :
    check_flag noErr fl db uid cid flag now = (.already_completed, db) := by
  unfold check_flag noErr
  simp [h]

/-- Concrete instance of the C3 theorem on `dbSolved`. -/
theorem check_flag_already_completed_no_write_witness :
    (existingCorrect dbSolved 1 0).isSome = true ∧
      check_flag noErr ["PFA"] dbSolved 1 0 "anything" 9 =
        (.already_completed, dbSolved) :=
  ⟨by decide,
   check_flag_already_completed_no_write ["PFA"] dbSolved 1 0 "anything" 9 (by decide)⟩

/-! ### C5: normalization and whole-string matching of submissions -/

/-- C5: the submission pipeline (`process_flag`) classifies a raw text as
correct iff its trimmed, uppercased form equals — as a whole string — the
uppercased form of at least one accepted-answer variant of the challenge. -/
theorem process_flag_correct_iff (flag_list : List String) (text : String) :
    process_flag_is_correct flag_list text = true ↔
      ∃ v ∈ flag_list, pyUpper (pyStrip text) = pyUpper v := by
  unfold process_flag_is_correct checkIsCorrect
  rw [List.contains_iff_exists_mem_beq]
  constructor
  · rintro ⟨a, ha, hbeq⟩
    rcases List.mem_map.mp ha with ⟨v, hv, rfl⟩
    exact ⟨v, hv, eq_of_beq hbeq⟩
  · rintro ⟨v, hv, hEq⟩
    exact ⟨pyUpper v, List.mem_map.mpr ⟨v, hv, rfl⟩, beq_iff_eq.mpr hEq⟩

/-! ### C8: the availability gate -/

/-- C8: `is_challenge_available` is a pure comparison of the current time
against the derived unlock timestamp: `start - one_day` for challenge `0`,
`start + (k - 1) * one_day` for challenge `k ≥ 1`. -/
theorem is_challenge_available_iff (start_date one_day now : Int) (cid : Nat) :
    is_challenge_available start_date one_day now cid = true ↔
      (if cid = 0 then start_date - one_day ≤ now
       else start_date + ((cid : Int) - 1) * one_day ≤ now) := by
  unfold is_challenge_available get_challenge_availability_date
  rcases eq_or_ne cid 0 with h | h
  · simp [h]
  · have h1 : 1 ≤ cid := Nat.one_le_iff_ne_zero.mpr h
    simp [h, Nat.cast_sub h1]

/-! ### C10: re-registration leaves statistics and registration date alone -/

/-- C10: re-registering an existing user rewrites only `username`,
`full_name` and `is_active` on the user's row (all other columns, including
`registration_date`, are kept) and leaves the `statistics` and `progress`
tables exactly as they were. -/
theorem register_user_existing_frame (db : DBState) (uid : Nat)
    (un fn : String) (now : Nat)
    (hu : db.users.any (fun u => u.user_id == uid) = true)
    (hs : db.statistics.any (fun s => s.user_id == uid) = true) :
    register_user db uid un fn now =
      { db with users := db.users.map fun u =>
          if u.user_id == uid then
            { u with username := un, full_name := fn, is_active := true }
          else u } := by
  unfold register_user
  simp [hu, hs]

/-- Concrete instance of the C10 theorem on `dbSolved`: the statistics row
(completed = 1, attempts = 1) and the registration date survive unchanged. -/
theorem register_user_existing_frame_witness :
    (dbSolved.users.any (fun u => u.user_id == 1) = true) ∧
    (dbSolved.statistics.any (fun s => s.user_id == 1) = true) ∧
    register_user dbSolved 1 "new_handle" "New Name" 77 =
      { dbSolved with users := dbSolved.users.map fun u =>
          if u.user_id == 1 then
            { u with username := "new_handle", full_name := "New Name",
                     is_active := true }
          else u } :=
  ⟨by decide, by decide,
   register_user_existing_frame dbSolved 1 "new_handle" "New Name" 77
     (by decide) (by decide)⟩

/-! ### C7: storage errors never escape as raised faults -/

/-- C7: a storage error in any executed step of `check_flag` yields the
`'error'` result (the first disjunct covers a failing prior-correct lookup,
the second a failing insert or statistics update on a run that reaches them);
a failing leaderboard query yields `[]`; a failing read inside
`get_user_progress` yields `(none, [])`.  No exception propagates. -/
theorem storage_errors_degrade (err : Nat → Bool) (fl : List String)
    (db : DBState) (uid cid : Nat) (flag : String) (now : Nat) :
    ((err 0 = true ∨
        ((existingCorrect db uid cid).isSome = false ∧
          (err 1 = true ∨ err 2 = true))) →
      (check_flag err fl db uid cid flag now).1 = .error) ∧
    get_leaderboard true db = [] ∧
    (∀ e1 e2 : Bool, (e1 || e2) = true →
      get_user_progress e1 e2 db uid = (none, [])) := by
  refine ⟨?_, by simp [get_leaderboard], ?_⟩
  · rintro (h0 | ⟨hp, h12⟩)
    · unfold check_flag
      simp [h0]
    · unfold check_flag
      by_cases h0 : err 0
      · simp [h0]
      · rcases h12 with h1 | h2
        · simp [h0, hp, h1]
        · by_cases h1 : err 1
          · simp [h0, hp, h1]
          · simp [h0, hp, h1, h2]
  · intro e1 e2 h
    unfold get_user_progress
    simp [h]

/-- Concrete instance of the C7 theorem: a failing lookup on a submit, a
failing leaderboard query, and a failing progress read, all degrade to their
result values on `dbReg`. -/
theorem storage_errors_degrade_witness :
    (check_flag (fun k => k == 0) ["PFA"] dbReg 1 0 "PFA" 3).1 = .error ∧
    get_leaderboard true dbReg = [] ∧
    get_user_progress true false dbReg 1 = (none, []) := by
  obtain ⟨h1, h2, h3⟩ :=
    storage_errors_degrade (fun k => k == 0) ["PFA"] dbReg 1 0 "PFA" 3
  exact ⟨h1 (Or.inl rfl), h2, h3 true false rfl⟩

/-! ### C1: the submit path is NOT one atomic transaction -/

/-- Helper: the Attempt insert never touches the `statistics` table. -/
theorem insertAttempt_statistics (db : DBState) (uid cid : Nat)
    (flag : String) (isc : Bool) (now : Nat) :
    (insertAttempt db uid cid flag isc now).statistics = db.statistics := by
  unfold insertAttempt
  split <;> rfl

/-- C1 counterexample: with the statistics update raising (`err 2`) after the
insert already committed, `check_flag` on `dbReg` returns `'error'` yet the
final state holds a new Attempt row while `statistics` is unchanged — an
observable Attempt-without-statistics state, contradicting the claim that the
two writes commit or roll back together. -/
theorem check_flag_not_atomic_counterexample :
    (check_flag (fun k => k == 2) ["PFA"] dbReg 1 0 "PFA" 5).1 = .error ∧
    (check_flag (fun k => k == 2) ["PFA"] dbReg 1 0 "PFA" 5).2.progress ≠
      dbReg.progress ∧
    (check_flag (fun k => k == 2) ["PFA"] dbReg 1 0 "PFA" 5).2.statistics =
      dbReg.statistics := by
  decide

/-- C1 as amended: `check_flag` runs the Attempt insert and the statistics
update as separate auto-committed commands, not one transaction.  Any storage
error still produces the FAILED (`'error'`) result, but when the statistics
update raises after a successful insert the run ends with the inserted
Attempt row observable and `statistics` untouched. -/
theorem check_flag_failure_after_insert (err : Nat → Bool) (fl : List String)
    (db : DBState) (uid cid : Nat) (flag : String) (now : Nat)
    (h0 : err 0 = false) (h1 : err 1 = false) (h2 : err 2 = true)
    (hprior : (existingCorrect db uid cid).isSome = false) :
    check_flag err fl db uid cid flag now =
      (.error, insertAttempt db uid cid flag (checkIsCorrect fl flag) now) ∧
    (check_flag err fl db uid cid flag now).2.statistics = db.statistics := by
  have hrun : check_flag err fl db uid cid flag now =
      (.error, insertAttempt db uid cid flag (checkIsCorrect fl flag) now) := by
    unfold check_flag
    simp [h0, h1, h2, hprior]
  exact ⟨hrun, by rw [hrun]; exact insertAttempt_statistics ..⟩

/-- Concrete instance of the amended C1 theorem on `dbReg`. -/
theorem check_flag_failure_after_insert_witness :
    check_flag (fun k => k == 2) ["PFA"] dbReg 1 0 "PFA" 5 =
      (.error, insertAttempt dbReg 1 0 "PFA" (checkIsCorrect ["PFA"] "PFA") 5) ∧
    (check_flag (fun k => k == 2) ["PFA"] dbReg 1 0 "PFA" 5).2.statistics =
      dbReg.statistics :=
  check_flag_failure_after_insert (fun k => k == 2) ["PFA"] dbReg 1 0 "PFA" 5
    rfl rfl rfl (by decide)

/-! ### C4: duplicate incorrect submissions and the counters -/

/-- Helper: `find?` commutes with mapping a function that does not change
whether the predicate holds. -/
theorem find?_map_eq {α : Type} (f : α → α) (p : α → Bool)
    (hf : ∀ x, p (f x) = p x) :
    ∀ l : List α, (l.map f).find? p = (l.find? p).map f := by
  intro l
  induction l with
  | nil => rfl
  | cons a l ih =>
    cases hpa : p a
    · rw [List.map_cons,
        List.find?_cons_of_neg _ (by rw [hf]; exact hpa ▸ Bool.false_ne_true),
        List.find?_cons_of_neg _ (hpa ▸ Bool.false_ne_true), ih]
    · rw [List.map_cons, List.find?_cons_of_pos _ (by rw [hf]; exact hpa),
        List.find?_cons_of_pos _ hpa, Option.map_some']

/-- Helper: the statistics row a user reads back after the incorrect-branch
update is the old row with `total_attempts` and `incorrect_attempts` bumped
and `last_activity` refreshed. -/
theorem getStats_updateStatsIncorrect (db : DBState) (uid now u : Nat) :
    getStats (updateStatsIncorrect db uid now) u =
      (getStats db u).map fun s =>
        if s.user_id == uid then
          { s with total_attempts := s.total_attempts + 1
                   incorrect_attempts := s.incorrect_attempts + 1
                   last_activity := now }
        else s := by
  unfold getStats updateStatsIncorrect
  exact find?_map_eq _ _ (fun s => by by_cases h : s.user_id == uid <;> simp [h]) _

/-- Helper: reading back the submitter's own statistics row after the
incorrect-branch update. -/
theorem getStats_updateStatsIncorrect_self (db : DBState) (uid now : Nat)
    (t : StatsRow) (h : getStats db uid = some t) :
    getStats (updateStatsIncorrect db uid now) uid =
      some { t with total_attempts := t.total_attempts + 1
                    incorrect_attempts := t.incorrect_attempts + 1
                    last_activity := now } := by
  have ht : (t.user_id == uid) = true := by
    have h' := h
    unfold getStats at h'
    simpa using List.find?_some h'
  rw [getStats_updateStatsIncorrect, h, Option.map_some', if_pos ht]

/-- Helper: same for the correct-branch update. -/
theorem getStats_updateStatsCorrect (db : DBState) (uid now u : Nat) :
    getStats (updateStatsCorrect db uid now) u =
      (getStats db u).map fun s =>
        if s.user_id == uid then
          { s with challenges_completed := challengesCompletedCount db uid
                   total_attempts := s.total_attempts + 1
                   correct_attempts := s.correct_attempts + 1
                   last_activity := now }
        else s := by
  unfold getStats updateStatsCorrect
  exact find?_map_eq _ _ (fun s => by by_cases h : s.user_id == uid <;> simp [h]) _

/-- State after a first incorrect submission of `WRONG` by user `1`. -/
def c4db1 : DBState := (check_flag noErr ["PFA"] dbReg 1 0 "WRONG" 5).2

/-- State after resubmitting the identical incorrect string. -/
def c4db2 : DBState := (check_flag noErr ["PFA"] c4db1 1 0 "WRONG" 6).2

/-- C4 counterexample: resubmitting the identical incorrect string creates no
second Attempt row, yet `total_attempts` and `incorrect_attempts` climb from
1 to 2 — the counters are NOT left unchanged as the claim states (the
statistics update runs even when the insert deduplicates). -/
theorem duplicate_incorrect_increments_counterexample :
    countRows c4db2 1 0 "WRONG" = countRows c4db1 1 0 "WRONG" ∧
    (getStats c4db1 1).map StatsRow.total_attempts = some 1 ∧
    (getStats c4db1 1).map StatsRow.incorrect_attempts = some 1 ∧
    (getStats c4db2 1).map StatsRow.total_attempts = some 2 ∧
    (getStats c4db2 1).map StatsRow.incorrect_attempts = some 2 := by
  decide

/-- C4 as amended: the first submission of an incorrect string creates exactly
one Attempt row and bumps `total_attempts`/`incorrect_attempts` by 1;
resubmitting the identical string creates no second Attempt row but bumps
both counters again (the statistics update runs regardless of the
deduplicated insert). -/
theorem check_flag_incorrect_resubmission (fl : List String) (db : DBState)
    (uid cid : Nat) (flag : String) (s : StatsRow) (n1 n2 : Nat)
    (hprior : existingCorrect db uid cid = none)
    (hnew : countRows db uid cid flag = 0)
    (hflag : checkIsCorrect fl flag = false)
    (hstats : getStats db uid = some s) :
    (check_flag noErr fl db uid cid flag n1).1 = .incorrect ∧
    countRows (check_flag noErr fl db uid cid flag n1).2 uid cid flag = 1 ∧
    getStats (check_flag noErr fl db uid cid flag n1).2 uid =
      some { s with total_attempts := s.total_attempts + 1
                    incorrect_attempts := s.incorrect_attempts + 1
                    last_activity := n1 } ∧
    (check_flag noErr fl (check_flag noErr fl db uid cid flag n1).2
        uid cid flag n2).1 = .incorrect ∧
    countRows (check_flag noErr fl (check_flag noErr fl db uid cid flag n1).2
        uid cid flag n2).2 uid cid flag = 1 ∧
    getStats (check_flag noErr fl (check_flag noErr fl db uid cid flag n1).2
        uid cid flag n2).2 uid =
      some { s with total_attempts := s.total_attempts + 2
                    incorrect_attempts := s.incorrect_attempts + 2
                    last_activity := n2 } := by
  have hany : db.progress.any (fun r =>
      r.user_id == uid && r.challenge_id == cid && r.flag_submitted == flag)
      = false := by
    rw [List.any_eq_false]
    intro r hr hcon
    have hfil : (db.progress.filter (fun r =>
        r.user_id == uid && r.challenge_id == cid && r.flag_submitted == flag))
        = [] := List.length_eq_zero.mp hnew
    have hmem : r ∈ db.progress.filter (fun r =>
        r.user_id == uid && r.challenge_id == cid && r.flag_submitted == flag) :=
      List.mem_filter.mpr ⟨hr, hcon⟩
    rw [hfil] at hmem
    exact absurd hmem (List.not_mem_nil r)
  have hrun1 : check_flag noErr fl db uid cid flag n1 =
      (.incorrect, updateStatsIncorrect
        { db with progress := db.progress ++ [⟨uid, cid, flag, false, n1⟩] }
        uid n1) := by
    unfold check_flag noErr insertAttempt
    simp [hprior, hflag, hany]
  have hprior1 : existingCorrect (updateStatsIncorrect
      { db with progress := db.progress ++ [⟨uid, cid, flag, false, n1⟩] }
      uid n1) uid cid = none := by
    unfold existingCorrect at hprior ⊢
    rw [List.find?_eq_none] at hprior ⊢
    intro r hr
    have hr' : r ∈ db.progress ++ [⟨uid, cid, flag, false, n1⟩] := hr
    rcases List.mem_append.mp hr' with h | h
    · exact hprior r h
    · rcases List.mem_singleton.mp h with rfl
      simp
  have hany1 : (updateStatsIncorrect
      { db with progress := db.progress ++ [⟨uid, cid, flag, false, n1⟩] }
      uid n1).progress.any (fun r =>
        r.user_id == uid && r.challenge_id == cid && r.flag_submitted == flag)
      = true := by
    rw [List.any_eq_true]
    exact ⟨⟨uid, cid, flag, false, n1⟩,
      List.mem_append_right _ (List.mem_singleton_self _), by simp⟩
  have hrun2 : check_flag noErr fl (updateStatsIncorrect
        { db with progress := db.progress ++ [⟨uid, cid, flag, false, n1⟩] }
        uid n1) uid cid flag n2 =
      (.incorrect, updateStatsIncorrect (updateStatsIncorrect
        { db with progress := db.progress ++ [⟨uid, cid, flag, false, n1⟩] }
        uid n1) uid n2) := by
    unfold check_flag noErr insertAttempt
    simp [hprior1, hflag, hany1]
  have hcount : ∀ dbx : DBState,
      dbx.progress = db.progress ++ [⟨uid, cid, flag, false, n1⟩] →
      countRows dbx uid cid flag = 1 := by
    intro dbx hx
    unfold countRows at hnew ⊢
    rw [hx, List.filter_append, List.length_append, hnew]
    simp
  have hbase : getStats
      { db with progress := db.progress ++ [⟨uid, cid, flag, false, n1⟩] }
      uid = some s := hstats
  have hg1 := getStats_updateStatsIncorrect_self
    { db with progress := db.progress ++ [⟨uid, cid, flag, false, n1⟩] }
    uid n1 s hbase
  have hg2 := getStats_updateStatsIncorrect_self _ uid n2 _ hg1
  refine ⟨by rw [hrun1], ?_, ?_, ?_, ?_, ?_⟩
  · rw [hrun1]
    exact hcount _ rfl
  · rw [hrun1]
    exact hg1
  · rw [hrun1]
    rw [hrun2]
  · rw [hrun1, hrun2]
    exact hcount _ rfl
  · rw [hrun1, hrun2]
    exact hg2

/-- Concrete instance of the amended C4 theorem on `dbReg`. -/
theorem check_flag_incorrect_resubmission_witness :
    (check_flag noErr ["PFA"] dbReg 1 0 "WRONG" 5).1 = .incorrect ∧
    countRows (check_flag noErr ["PFA"] dbReg 1 0 "WRONG" 5).2 1 0 "WRONG" = 1 ∧
    getStats (check_flag noErr ["PFA"] dbReg 1 0 "WRONG" 5).2 1 =
      some { user_id := 1, challenges_completed := 0, total_attempts := 1,
             correct_attempts := 0, incorrect_attempts := 1, last_activity := 5,
             total_time_minutes := 0, average_attempts_per_challenge := 0 } ∧
    (check_flag noErr ["PFA"] (check_flag noErr ["PFA"] dbReg 1 0 "WRONG" 5).2
        1 0 "WRONG" 6).1 = .incorrect ∧
    countRows (check_flag noErr ["PFA"]
        (check_flag noErr ["PFA"] dbReg 1 0 "WRONG" 5).2 1 0 "WRONG" 6).2
        1 0 "WRONG" = 1 ∧
    getStats (check_flag noErr ["PFA"]
        (check_flag noErr ["PFA"] dbReg 1 0 "WRONG" 5).2 1 0 "WRONG" 6).2 1 =
      some { user_id := 1, challenges_completed := 0, total_attempts := 2,
             correct_attempts := 0, incorrect_attempts := 2, last_activity := 6,
             total_time_minutes := 0, average_attempts_per_challenge := 0 } :=
  check_flag_incorrect_resubmission ["PFA"] dbReg 1 0 "WRONG"
    { user_id := 1, challenges_completed := 0, total_attempts := 0,
      correct_attempts := 0, incorrect_attempts := 0, last_activity := 0,
      total_time_minutes := 0, average_attempts_per_challenge := 0 } 5 6
    (by decide) (by decide) (by decide) (by decide)

/-! ### C2: challenges_completed is recomputed, never blindly incremented -/

/-- The C2 invariant: every statistics row stores exactly the number of
distinct challenge ids with at least one correct Attempt of its user. -/
def statsInvariant (db : DBState) : Prop :=
  ∀ s ∈ db.statistics,
    s.challenges_completed = challengesCompletedCount db s.user_id

/-- Helper: the no-fault run of `check_flag`, with the fault branches
eliminated. -/
theorem check_flag_noErr_eq (fl : List String) (db : DBState) (uid cid : Nat)
    (flag : String) (now : Nat) :
    check_flag noErr fl db uid cid flag now =
      if (existingCorrect db uid cid).isSome then (.already_completed, db)
      else if checkIsCorrect fl flag then
        (.correct, updateStatsCorrect
          (insertAttempt db uid cid flag (checkIsCorrect fl flag) now) uid now)
      else
        (.incorrect, updateStatsIncorrect
          (insertAttempt db uid cid flag (checkIsCorrect fl flag) now) uid now) := by
  unfold check_flag noErr
  simp

/-- Helper: the insert either deduplicates (no change) or appends the row. -/
theorem insertAttempt_cases (db : DBState) (uid cid : Nat) (flag : String)
    (isc : Bool) (now : Nat) :
    insertAttempt db uid cid flag isc now = db ∨
    insertAttempt db uid cid flag isc now =
      { db with progress := db.progress ++ [⟨uid, cid, flag, isc, now⟩] } := by
  unfold insertAttempt
  split
  · exact Or.inl rfl
  · exact Or.inr rfl

/-- Helper: appending a row that is not a correct attempt of user `v` does
not change `v`'s distinct-completed count. -/
theorem ccc_append_not_correct (db : DBState) (r : AttemptRow) (v : Nat)
    (h : (r.user_id == v && r.is_correct) = false) :
    challengesCompletedCount { db with progress := db.progress ++ [r] } v =
      challengesCompletedCount db v := by
  unfold challengesCompletedCount
  simp only [List.filter_append, List.filter_cons, List.filter_nil, h,
    Bool.false_eq_true, if_false, List.append_nil]

/-- Helper: the insert leaves any count unaffected unless it inserts a
correct row of that same user. -/
theorem ccc_insertAttempt (db : DBState) (uid cid : Nat) (flag : String)
    (isc : Bool) (now v : Nat) (h : (uid == v && isc) = false) :
    challengesCompletedCount (insertAttempt db uid cid flag isc now) v =
      challengesCompletedCount db v := by
  rcases insertAttempt_cases db uid cid flag isc now with h1 | h1 <;> rw [h1]
  exact ccc_append_not_correct db ⟨uid, cid, flag, isc, now⟩ v h

/-- Helper: the statistics updates do not touch `progress`, hence no count. -/
theorem ccc_updateStatsCorrect (db : DBState) (u n v : Nat) :
    challengesCompletedCount (updateStatsCorrect db u n) v =
      challengesCompletedCount db v := rfl

/-- Helper: incorrect-branch version. -/
theorem ccc_updateStatsIncorrect (db : DBState) (u n v : Nat) :
    challengesCompletedCount (updateStatsIncorrect db u n) v =
      challengesCompletedCount db v := rfl

/-- C2: any completed no-fault run of `check_flag` preserves the invariant
that `challenges_completed` equals the count of distinct challenge ids with a
correct Attempt, for every user: the correct branch recomputes the value as
`COUNT(DISTINCT challenge_id)` over the just-extended Attempt log (never an
increment), and the other branches leave both sides unchanged. -/
theorem check_flag_preserves_completed_invariant (fl : List String)
    (db : DBState) (uid cid : Nat) (flag : String) (now : Nat)
    (hinv : statsInvariant db) :
    statsInvariant (check_flag noErr fl db uid cid flag now).2 := by
  rw [check_flag_noErr_eq]
  cases hex : (existingCorrect db uid cid).isSome
  · cases hisc : checkIsCorrect fl flag
    · -- incorrect branch
      simp only [hex, Bool.false_eq_true, if_false, hisc]
      intro s hs
      have hs' : s ∈ ((insertAttempt db uid cid flag false now).statistics.map
          fun t => if t.user_id == uid then
            { t with total_attempts := t.total_attempts + 1,
                     incorrect_attempts := t.incorrect_attempts + 1,
                     last_activity := now }
          else t) := hs
      rw [insertAttempt_statistics] at hs'
      rcases List.mem_map.mp hs' with ⟨t, ht, rfl⟩
      have hcount : ∀ w : Nat,
          challengesCompletedCount (updateStatsIncorrect
            (insertAttempt db uid cid flag false now) uid now) w =
          challengesCompletedCount db w := by
        intro w
        rw [ccc_updateStatsIncorrect,
          ccc_insertAttempt db uid cid flag false now w (by simp)]
      by_cases htu : (t.user_id == uid) = true
      · simp only [htu, if_true, hcount]
        exact hinv t ht
      · simp only [htu, if_false, hcount]
        exact hinv t ht
    · -- correct branch
      simp only [hex, Bool.false_eq_true, if_false, hisc, if_true]
      intro s hs
      have hs' : s ∈ ((insertAttempt db uid cid flag true now).statistics.map
          fun t => if t.user_id == uid then
            { t with challenges_completed := challengesCompletedCount
                       (insertAttempt db uid cid flag true now) uid,
                     total_attempts := t.total_attempts + 1,
                     correct_attempts := t.correct_attempts + 1,
                     last_activity := now }
          else t) := hs
      rw [insertAttempt_statistics] at hs'
      rcases List.mem_map.mp hs' with ⟨t, ht, rfl⟩
      have hprog : ∀ w : Nat,
          challengesCompletedCount (updateStatsCorrect
            (insertAttempt db uid cid flag true now) uid now) w =
          challengesCompletedCount (insertAttempt db uid cid flag true now) w :=
        fun w => ccc_updateStatsCorrect _ _ _ _
      by_cases htu : (t.user_id == uid) = true
      · have htu' : t.user_id = uid := by simpa using htu
        simp [htu', hprog]
      · have huv : (uid == t.user_id && true) = false := by
          have hne : t.user_id ≠ uid := by
            intro hEq
            exact htu (by simp [hEq])
          simp [Ne.symm hne]
        simpa [htu, hprog,
          ccc_insertAttempt db uid cid flag true now t.user_id huv]
          using hinv t ht
  · simp only [hex, if_true]
    exact hinv

/-- Concrete instance of the C2 theorem: the invariant holds on `dbReg` and
is preserved by a correct submission. -/
theorem check_flag_preserves_completed_invariant_witness :
    statsInvariant dbReg ∧
    statsInvariant (check_flag noErr ["PFA"] dbReg 1 0 "PFA" 4).2 :=
  ⟨by unfold statsInvariant; decide,
   check_flag_preserves_completed_invariant ["PFA"] dbReg 1 0 "PFA" 4
     (by unfold statsInvariant; decide)⟩

/-! ### C6: leaderboard ordering, exclusion and truncation -/

instance : IsTotal LeaderRow botOrder :=
  ⟨fun a b => by
    unfold botOrder
    rcases Nat.lt_trichotomy a.challenges_completed b.challenges_completed
      with h | h | h
    · exact Or.inr (Or.inl h)
    · rcases Nat.le_total a.total_attempts b.total_attempts with h' | h'
      · exact Or.inl (Or.inr ⟨h, h'⟩)
      · exact Or.inr (Or.inr ⟨h.symm, h'⟩)
    · exact Or.inl (Or.inl h)⟩

instance : IsTrans LeaderRow botOrder :=
  ⟨fun a b c hab hbc => by
    unfold botOrder at *
    rcases hab with h1 | ⟨h1, h1'⟩ <;> rcases hbc with h2 | ⟨h2, h2'⟩
    · exact Or.inl (by omega)
    · exact Or.inl (by omega)
    · exact Or.inl (by omega)
    · exact Or.inr ⟨by omega, by omega⟩⟩

/-- Two users tied at one completed challenge: user 1 (`ANA`) solved earlier
(`submission_date = 1`) but needed 5 attempts; user 2 (`BETO`) solved later
(`submission_date = 2`) with 1 attempt. -/
def dbC6 : DBState :=
  { users := [{ user_id := 1, username := "a", full_name := "ANA",
                registration_date := 0, is_active := true,
                email := none, phone := none, organization := none },
              { user_id := 2, username := "b", full_name := "BETO",
                registration_date := 0, is_active := true,
                email := none, phone := none, organization := none }]
    progress := [{ user_id := 1, challenge_id := 0, flag_submitted := "PFA",
                   is_correct := true, submission_date := 1 },
                 { user_id := 2, challenge_id := 0, flag_submitted := "PFA",
                   is_correct := true, submission_date := 2 }]
    statistics := [{ user_id := 1, challenges_completed := 1, total_attempts := 5,
                     correct_attempts := 1, incorrect_attempts := 4,
                     last_activity := 1, total_time_minutes := 0,
                     average_attempts_per_challenge := 0 },
                   { user_id := 2, challenges_completed := 1, total_attempts := 1,
                     correct_attempts := 1, incorrect_attempts := 0,
                     last_activity := 2, total_time_minutes := 0,
                     average_attempts_per_challenge := 0 }] }

/-- C6 counterexample: on `dbC6` the presented leaderboard is not ordered by
completions descending with ties broken by earliest first correct submission
ascending — the presentation layer re-sorts ties by `total_attempts`, placing
the later solver `BETO` (fewer attempts) above the earlier solver `ANA`. -/
theorem leaderboard_tiebreak_counterexample :
    ¬ (leaderboard_presented false dbC6).Pairwise leaderboardOrder := by
  decide

/-- C6 as amended: the presented leaderboard is ordered by
`challenges_completed` descending with ties broken by `total_attempts`
ascending (the presentation layer re-sorts the SQL tie-break away); users
with zero completions never appear, and at most 10 rows are shown. -/
theorem leaderboard_presented_shape (e : Bool) (db : DBState) :
    (leaderboard_presented e db).Pairwise botOrder ∧
    (∀ r ∈ leaderboard_presented e db, 0 < r.challenges_completed) ∧
    (leaderboard_presented e db).length ≤ 10 := by
  refine ⟨?_, ?_, ?_⟩
  · have hs : (List.insertionSort botOrder (get_leaderboard e db)).Sorted botOrder :=
      List.sorted_insertionSort botOrder _
    exact hs.sublist (List.take_sublist _ _)
  · intro r hr
    have hr1 : r ∈ List.insertionSort botOrder (get_leaderboard e db) :=
      List.take_subset _ _ hr
    have hr2 : r ∈ get_leaderboard e db := (List.mem_insertionSort botOrder).mp hr1
    cases e
    · unfold get_leaderboard at hr2
      simp only [Bool.false_eq_true, if_false] at hr2
      have hr3 : r ∈ ((joinedKeys db).map (groupRow db)).insertionSort
          leaderboardOrder := List.take_subset _ _ hr2
      have hr4 : r ∈ (joinedKeys db).map (groupRow db) :=
        (List.mem_insertionSort leaderboardOrder).mp hr3
      rcases List.mem_map.mp hr4 with ⟨k, hk, rfl⟩
      have hk' : k ∈ db.users.filterMap fun u =>
          (db.statistics.find? fun s => s.user_id == u.user_id).bind fun s =>
            if 0 < s.challenges_completed then
              some (u.full_name, s.challenges_completed, s.total_attempts)
            else none := by
        have := hk
        unfold joinedKeys at this
        exact List.mem_dedup.mp this
      rcases List.mem_filterMap.mp hk' with ⟨u, _, hmap⟩
      cases hfind : db.statistics.find? fun s => s.user_id == u.user_id with
      | none => rw [hfind] at hmap; exact absurd hmap (by simp)
      | some s =>
          rw [hfind] at hmap
          by_cases hpos : 0 < s.challenges_completed
          · rw [Option.some_bind, if_pos hpos] at hmap
            cases hmap
            exact hpos
          · rw [Option.some_bind, if_neg hpos] at hmap
            exact absurd hmap (by simp)
    · exact absurd hr2 (by simp [get_leaderboard])
  · exact List.length_take_le _ _

/-! ### C9: two interleaved submissions of the same correct text

The event loop interleaves in-flight `check_flag` coroutines at their await
points; each of the three storage statements of a run is atomic.  A run is
modelled as a three-step task, a pair of runs as a small transition system
driven by an arbitrary schedule. -/

/-- Program counter of one in-flight `check_flag` run. -/
inductive ThreadPC where
  | checkStep
  | insertStep
  | updateStep
  | done (r : SubmitResult)
deriving DecidableEq, Repr

/-- Arguments of one in-flight `check_flag` call; `now` is the timestamp its
statements commit with. -/
structure SubTask where
  uid : Nat
  cid : Nat
  flag : String
  challenge_flags : List String
  now : Nat

/-- One atomic storage statement of an in-flight run: the prior-correct
lookup, the deduplicating insert, or the statistics update — the statement
boundaries are the interleaving points of the event loop. -/
def taskStep (t : SubTask) : DBState × ThreadPC → DBState × ThreadPC
  | (db, .checkStep) =>
      if (existingCorrect db t.uid t.cid).isSome then
        (db, .done .already_completed)
      else (db, .insertStep)
  | (db, .insertStep) =>
      (insertAttempt db t.uid t.cid t.flag
        (checkIsCorrect t.challenge_flags t.flag) t.now, .updateStep)
  | (db, .updateStep) =>
      if checkIsCorrect t.challenge_flags t.flag then
        (updateStatsCorrect db t.uid t.now, .done .correct)
      else (updateStatsIncorrect db t.uid t.now, .done .incorrect)
  | (db, .done r) => (db, .done r)

/-- Joint configuration of two in-flight submissions. -/
structure Conf where
  db : DBState
  pc1 : ThreadPC
  pc2 : ThreadPC

/-- One scheduler decision: `true` steps the first task, `false` the second. -/
def sysStep (t1 t2 : SubTask) (c : Conf) (choice : Bool) : Conf :=
  if choice then
    ⟨(taskStep t1 (c.db, c.pc1)).1, (taskStep t1 (c.db, c.pc1)).2, c.pc2⟩
  else
    ⟨(taskStep t2 (c.db, c.pc2)).1, c.pc1, (taskStep t2 (c.db, c.pc2)).2⟩

/-- Run a schedule of decisions. -/
def sysRun (t1 t2 : SubTask) (c : Conf) (sched : List Bool) : Conf :=
  sched.foldl (sysStep t1 t2) c

/-- Both submissions started together, interleaved by an arbitrary schedule
prefix, then each run to completion (three steps always reach `done`). -/
def twoSubmissions (t1 t2 : SubTask) (db : DBState) (sched : List Bool) : Conf :=
  sysRun t1 t2 ⟨db, .checkStep, .checkStep⟩
    (sched ++ [true, true, true, false, false, false])

/-- Sanity: a task run alone, three steps from the start, computes exactly
the no-fault `check_flag`, result and state. -/
theorem taskStep_three_eq_check_flag (t : SubTask) (db : DBState) :
    taskStep t (taskStep t (taskStep t (db, .checkStep))) =
      ((check_flag noErr t.challenge_flags db t.uid t.cid t.flag t.now).2,
        .done (check_flag noErr t.challenge_flags db t.uid t.cid t.flag t.now).1) := by
  rw [check_flag_noErr_eq]
  by_cases h : (existingCorrect db t.uid t.cid).isSome <;>
    by_cases h2 : checkIsCorrect t.challenge_flags t.flag <;>
      simp [taskStep, h, h2]

/-- Three steps reach a `done` program counter from anywhere. -/
theorem taskStep_three_done (t : SubTask) (db : DBState) (pc : ThreadPC) :
    ∃ r, (taskStep t (taskStep t (taskStep t (db, pc)))).2 = .done r := by
  cases pc with
  | checkStep =>
      by_cases h : (existingCorrect db t.uid t.cid).isSome <;>
        by_cases h2 : checkIsCorrect t.challenge_flags t.flag <;>
          simp [taskStep, h, h2]
  | insertStep =>
      by_cases h2 : checkIsCorrect t.challenge_flags t.flag <;>
        simp [taskStep, h2]
  | updateStep =>
      by_cases h2 : checkIsCorrect t.challenge_flags t.flag <;>
        simp [taskStep, h2]
  | done r => exact ⟨r, rfl⟩

/-- Helper: `existingCorrect` depends only on the `progress` table. -/
theorem existingCorrect_congr (db db' : DBState) (uid cid : Nat)
    (h : db.progress = db'.progress) :
    existingCorrect db uid cid = existingCorrect db' uid cid := by
  unfold existingCorrect
  rw [h]

/-- Helper: `countRows` depends only on the `progress` table. -/
theorem countRows_congr (db db' : DBState) (uid cid : Nat) (flag : String)
    (h : db.progress = db'.progress) :
    countRows db uid cid flag = countRows db' uid cid flag := by
  unfold countRows
  rw [h]

/-- Helper: the distinct-completed count depends only on `progress`. -/
theorem ccc_congr (db db' : DBState) (u : Nat) (h : db.progress = db'.progress) :
    challengesCompletedCount db u = challengesCompletedCount db' u := by
  unfold challengesCompletedCount
  rw [h]

/-- Helper: `getStats` depends only on the `statistics` table. -/
theorem getStats_congr (db db' : DBState) (u : Nat)
    (h : db.statistics = db'.statistics) :
    getStats db u = getStats db' u := by
  unfold getStats
  rw [h]

/-- Helper: appending one row strictly extends the list. -/
theorem append_singleton_ne (l : List AttemptRow) (r : AttemptRow) :
    l ++ [r] ≠ l := by
  intro h
  have := congrArg List.length h
  simp at this

/-- Helper: with a dedup conflict present, the insert is a no-op. -/
theorem insertAttempt_noop_of_any (db : DBState) (uid cid : Nat)
    (flag : String) (isc : Bool) (now : Nat)
    (h : db.progress.any (fun r =>
      r.user_id == uid && r.challenge_id == cid && r.flag_submitted == flag)
      = true) :
    insertAttempt db uid cid flag isc now = db := by
  unfold insertAttempt
  simp [h]

/-- Helper: with no matching triple in `progress`, the dedup test fails. -/
theorem countRows_zero_any_false (db : DBState) (uid cid : Nat) (flag : String)
    (h : countRows db uid cid flag = 0) :
    db.progress.any (fun r =>
      r.user_id == uid && r.challenge_id == cid && r.flag_submitted == flag)
      = false := by
  rw [List.any_eq_false]
  intro r hr hcon
  have hfil : (db.progress.filter (fun r =>
      r.user_id == uid && r.challenge_id == cid && r.flag_submitted == flag))
      = [] := List.length_eq_zero.mp h
  have hmem : r ∈ db.progress.filter (fun r =>
      r.user_id == uid && r.challenge_id == cid && r.flag_submitted == flag) :=
    List.mem_filter.mpr ⟨hr, hcon⟩
  rw [hfil] at hmem
  exact absurd hmem (List.not_mem_nil r)

/-- Helper: appending a matching row bumps `countRows` by one. -/
theorem countRows_append_match (db : DBState) (uid cid : Nat) (flag : String)
    (isc : Bool) (n : Nat) :
    countRows { db with progress := db.progress ++ [⟨uid, cid, flag, isc, n⟩] }
      uid cid flag = countRows db uid cid flag + 1 := by
  unfold countRows
  simp [List.filter_append]

/-- Helper: a deduplicated list grows by exactly one distinct element. -/
theorem dedup_length_append_singleton {α : Type} [DecidableEq α]
    (l : List α) (a : α) (h : a ∉ l) :
    (l ++ [a]).dedup.length = l.dedup.length + 1 := by
  rw [← List.card_toFinset, ← List.card_toFinset]
  have h2 : (l ++ [a]).toFinset = insert a l.toFinset := by
    ext x
    simp [or_comm]
  rw [h2, Finset.card_insert_of_not_mem (by simpa using h)]

/-- Helper: inserting the first correct Attempt of `(uid, cid)` raises the
distinct-completed count by exactly one. -/
theorem ccc_append_new (db : DBState) (uid cid : Nat) (flag : String) (n : Nat)
    (hprior : existingCorrect db uid cid = none) :
    challengesCompletedCount
      { db with progress := db.progress ++ [⟨uid, cid, flag, true, n⟩] } uid =
      challengesCompletedCount db uid + 1 := by
  unfold challengesCompletedCount
  have hnotin : cid ∉ (db.progress.filter fun r =>
      r.user_id == uid && r.is_correct).map (·.challenge_id) := by
    intro hmem
    rcases List.mem_map.mp hmem with ⟨r, hr, hrc⟩
    have hfil := List.mem_filter.mp hr
    unfold existingCorrect at hprior
    rw [List.find?_eq_none] at hprior
    refine hprior r hfil.1 ?_
    have h1 := hfil.2
    simp only [Bool.and_eq_true] at h1 ⊢
    exact ⟨⟨h1.1, by simp [hrc]⟩, h1.2⟩
  rw [List.filter_append]
  simp only [List.filter_cons, List.filter_nil]
  rw [if_pos (by simp)]
  rw [List.map_append]
  exact dedup_length_append_singleton _ _ hnotin

/-- Helper: reading back the submitter's own statistics row after the
correct-branch update. -/
theorem getStats_updateStatsCorrect_self (db : DBState) (uid now : Nat)
    (t : StatsRow) (h : getStats db uid = some t) :
    getStats (updateStatsCorrect db uid now) uid =
      some { t with challenges_completed := challengesCompletedCount db uid
                    total_attempts := t.total_attempts + 1
                    correct_attempts := t.correct_attempts + 1
                    last_activity := now } := by
  have ht : (t.user_id == uid) = true := by
    have h' := h
    unfold getStats at h'
    simpa using List.find?_some h'
  rw [getStats_updateStatsCorrect, h, Option.map_some', if_pos ht]

/-- Helper: a `done correct` lookup of the just-inserted row. -/
theorem existingCorrect_isSome_of_append (db db0 : DBState) (uid cid : Nat)
    (flag : String) (n : Nat)
    (hp : db.progress = db0.progress ++ [⟨uid, cid, flag, true, n⟩]) :
    (existingCorrect db uid cid).isSome = true := by
  unfold existingCorrect
  rw [List.find?_isSome]
  exact ⟨⟨uid, cid, flag, true, n⟩,
    by rw [hp]; exact List.mem_append_right _ (List.mem_singleton_self _),
    by simp⟩

/-- Helper: an extended `progress` list differs from the original. -/
theorem progress_ne_of_append (db db0 : DBState) (r : AttemptRow)
    (hp : db.progress = db0.progress ++ [r]) :
    db.progress ≠ db0.progress := by
  rw [hp]
  exact append_singleton_ne _ _

/-- A program counter of the race that has committed its insert (and so
witnesses the row): at the update step or finished successfully. -/
def passedPC : ThreadPC → Prop
  | .updateStep => True
  | .done .correct => True
  | _ => False

/-- Per-thread invariant of the race relative to the initial state `db0`:
past the insert the row is in; a successfully finished run has stored the
recomputed completion count `cc1`; with a correct text and no faults a run
never finishes `incorrect` or `error`. -/
def pcOK (db0 : DBState) (uid cc1 : Nat) (db : DBState) : ThreadPC → Prop
  | .checkStep => True
  | .insertStep => True
  | .updateStep => db.progress ≠ db0.progress
  | .done .correct => db.progress ≠ db0.progress ∧
      (getStats db uid).map StatsRow.challenges_completed = some cc1
  | .done .already_completed => db.progress ≠ db0.progress
  | .done .incorrect => False
  | .done .error => False

/-- Joint invariant of the two racing submissions of the same correct text. -/
def raceInvP (db0 : DBState) (uid cid : Nat) (flag : String)
    (n1 n2 cc1 : Nat) (db : DBState) (pcA pcB : ThreadPC) : Prop :=
  (db.progress = db0.progress ∨
    db.progress = db0.progress ++ [⟨uid, cid, flag, true, n1⟩] ∨
    db.progress = db0.progress ++ [⟨uid, cid, flag, true, n2⟩]) ∧
  (getStats db uid).isSome = true ∧
  pcOK db0 uid cc1 db pcA ∧
  pcOK db0 uid cc1 db pcB ∧
  (db.progress ≠ db0.progress → passedPC pcA ∨ passedPC pcB)

/-- The joint invariant is symmetric in the two threads. -/
theorem raceInvP_swap (db0 : DBState) (uid cid : Nat) (flag : String)
    (n1 n2 cc1 : Nat) (db : DBState) (pcA pcB : ThreadPC)
    (h : raceInvP db0 uid cid flag n1 n2 cc1 db pcA pcB) :
    raceInvP db0 uid cid flag n1 n2 cc1 db pcB pcA := by
  obtain ⟨h1, h2, h3, h4, h5⟩ := h
  exact ⟨h1, h2, h4, h3, fun hne => (h5 hne).symm⟩

/-- Helper: the per-thread facts survive a state change that keeps the row
in and does not touch the user's statistics row. -/
theorem pcOK_mono (db0 : DBState) (uid cc1 : Nat) (db db' : DBState)
    (hne : db'.progress ≠ db0.progress)
    (hstats : getStats db' uid = getStats db uid)
    (pc : ThreadPC) (h : pcOK db0 uid cc1 db pc) : pcOK db0 uid cc1 db' pc := by
  cases pc with
  | checkStep => trivial
  | insertStep => trivial
  | updateStep => exact hne
  | done r =>
      cases r with
      | correct => exact ⟨hne, by rw [hstats]; exact h.2⟩
      | already_completed => exact hne
      | incorrect => exact h.elim
      | error => exact h.elim

/-- One step of either racing thread preserves the joint invariant. -/
theorem raceStep_preserves (db0 : DBState) (uid cid : Nat) (flag : String)
    (fl : List String) (n1 n2 : Nat)
    (hcorrect : checkIsCorrect fl flag = true)
    (hprior : existingCorrect db0 uid cid = none)
    (hrows0 : countRows db0 uid cid flag = 0)
    (tn : Nat) (htn : tn = n1 ∨ tn = n2)
    (db : DBState) (pcA pcB : ThreadPC)
    (h : raceInvP db0 uid cid flag n1 n2
      (challengesCompletedCount db0 uid + 1) db pcA pcB) :
    raceInvP db0 uid cid flag n1 n2 (challengesCompletedCount db0 uid + 1)
      (taskStep ⟨uid, cid, flag, fl, tn⟩ (db, pcA)).1
      (taskStep ⟨uid, cid, flag, fl, tn⟩ (db, pcA)).2 pcB := by
  obtain ⟨h1, h2, h3, h4, h5⟩ := h
  cases pcA with
  | checkStep =>
      rcases h1 with hp | hp | hp
      · have hex : existingCorrect db uid cid = none := by
          rw [existingCorrect_congr db db0 uid cid hp]
          exact hprior
        simp only [taskStep, hex, Option.isSome_none, Bool.false_eq_true,
          if_false]
        exact ⟨Or.inl hp, h2, trivial, h4, fun hne => absurd hp hne⟩
      · have hex : (existingCorrect db uid cid).isSome = true :=
          existingCorrect_isSome_of_append db db0 uid cid flag n1 hp
        simp only [taskStep, hex, if_true]
        exact ⟨Or.inr (Or.inl hp), h2,
          progress_ne_of_append db db0 _ hp, h4,
          fun hne => Or.inr ((h5 hne).resolve_left (fun hpass => hpass))⟩
      · have hex : (existingCorrect db uid cid).isSome = true :=
          existingCorrect_isSome_of_append db db0 uid cid flag n2 hp
        simp only [taskStep, hex, if_true]
        exact ⟨Or.inr (Or.inr hp), h2,
          progress_ne_of_append db db0 _ hp, h4,
          fun hne => Or.inr ((h5 hne).resolve_left (fun hpass => hpass))⟩
  | insertStep =>
      simp only [taskStep, hcorrect]
      rcases h1 with hp | hp | hp
      · have hany : db.progress.any (fun r =>
            r.user_id == uid && r.challenge_id == cid &&
              r.flag_submitted == flag) = false :=
          countRows_zero_any_false db uid cid flag
            (by rw [countRows_congr db db0 uid cid flag hp]; exact hrows0)
        have hins : insertAttempt db uid cid flag true tn =
            { db with progress := db.progress ++ [⟨uid, cid, flag, true, tn⟩] } := by
          unfold insertAttempt
          simp [hany]
        rw [hins]
        have hprog' : ({ db with progress :=
            db.progress ++ [⟨uid, cid, flag, true, tn⟩] } : DBState).progress =
            db0.progress ++ [⟨uid, cid, flag, true, tn⟩] := by
          simp [hp]
        have hne : ({ db with progress :=
            db.progress ++ [⟨uid, cid, flag, true, tn⟩] } : DBState).progress ≠
            db0.progress := progress_ne_of_append _ db0 _ hprog'
        have hstats : getStats { db with progress :=
            db.progress ++ [⟨uid, cid, flag, true, tn⟩] } uid =
            getStats db uid := rfl
        refine ⟨?_, by rw [hstats]; exact h2,
          hne, pcOK_mono db0 uid _ db _ hne hstats pcB h4,
          fun _ => Or.inl trivial⟩
        · rcases htn with rfl | rfl
          · exact Or.inr (Or.inl hprog')
          · exact Or.inr (Or.inr hprog')
      · have hany : db.progress.any (fun r =>
            r.user_id == uid && r.challenge_id == cid &&
              r.flag_submitted == flag) = true := by
          rw [List.any_eq_true]
          exact ⟨⟨uid, cid, flag, true, n1⟩,
            by rw [hp]; exact List.mem_append_right _ (List.mem_singleton_self _),
            by simp⟩
        rw [insertAttempt_noop_of_any db uid cid flag true tn hany]
        exact ⟨Or.inr (Or.inl hp), h2,
          progress_ne_of_append db db0 _ hp, h4, fun _ => Or.inl trivial⟩
      · have hany : db.progress.any (fun r =>
            r.user_id == uid && r.challenge_id == cid &&
              r.flag_submitted == flag) = true := by
          rw [List.any_eq_true]
          exact ⟨⟨uid, cid, flag, true, n2⟩,
            by rw [hp]; exact List.mem_append_right _ (List.mem_singleton_self _),
            by simp⟩
        rw [insertAttempt_noop_of_any db uid cid flag true tn hany]
        exact ⟨Or.inr (Or.inr hp), h2,
          progress_ne_of_append db db0 _ hp, h4, fun _ => Or.inl trivial⟩
  | updateStep =>
      simp only [taskStep, hcorrect, if_true]
      have hne : db.progress ≠ db0.progress := h3
      have hccc : challengesCompletedCount db uid =
          challengesCompletedCount db0 uid + 1 := by
        rcases h1 with hp | hp | hp
        · exact absurd hp hne
        · rw [ccc_congr db { db0 with progress :=
              db0.progress ++ [⟨uid, cid, flag, true, n1⟩] } uid (by simp [hp])]
          exact ccc_append_new db0 uid cid flag n1 hprior
        · rw [ccc_congr db { db0 with progress :=
              db0.progress ++ [⟨uid, cid, flag, true, n2⟩] } uid (by simp [hp])]
          exact ccc_append_new db0 uid cid flag n2 hprior
      obtain ⟨t, ht⟩ := Option.isSome_iff_exists.mp h2
      have hupd := getStats_updateStatsCorrect_self db uid tn t ht
      have hccfact : (getStats (updateStatsCorrect db uid tn) uid).map
          StatsRow.challenges_completed =
          some (challengesCompletedCount db0 uid + 1) := by
        rw [hupd, Option.map_some']
        simpa using hccc
      refine ⟨h1, by rw [hupd]; rfl, ⟨hne, hccfact⟩, ?_, fun _ => Or.inl trivial⟩
      · cases pcB with
        | checkStep => trivial
        | insertStep => trivial
        | updateStep => exact h4
        | done r =>
            cases r with
            | correct => exact ⟨h4.1, hccfact⟩
            | already_completed => exact h4
            | incorrect => exact h4.elim
            | error => exact h4.elim
  | done r =>
      exact ⟨h1, h2, h3, h4, h5⟩

/-- Schedules compose. -/
theorem sysRun_append (t1 t2 : SubTask) (c : Conf) (l1 l2 : List Bool) :
    sysRun t1 t2 c (l1 ++ l2) = sysRun t1 t2 (sysRun t1 t2 c l1) l2 := by
  unfold sysRun
  exact List.foldl_append _ _ _ _

/-- Three consecutive first-thread steps, unrolled. -/
theorem sysRun_three_true (t1 t2 : SubTask) (c : Conf) :
    sysRun t1 t2 c [true, true, true] =
      ⟨(taskStep t1 (taskStep t1 (taskStep t1 (c.db, c.pc1)))).1,
       (taskStep t1 (taskStep t1 (taskStep t1 (c.db, c.pc1)))).2, c.pc2⟩ := rfl

/-- Three consecutive second-thread steps, unrolled. -/
theorem sysRun_three_false (t1 t2 : SubTask) (c : Conf) :
    sysRun t1 t2 c [false, false, false] =
      ⟨(taskStep t2 (taskStep t2 (taskStep t2 (c.db, c.pc2)))).1, c.pc1,
       (taskStep t2 (taskStep t2 (taskStep t2 (c.db, c.pc2)))).2⟩ := rfl

/-- Any schedule preserves the joint invariant. -/
theorem raceRun_preserves (db0 : DBState) (uid cid : Nat) (flag : String)
    (fl : List String) (n1 n2 : Nat)
    (hcorrect : checkIsCorrect fl flag = true)
    (hprior : existingCorrect db0 uid cid = none)
    (hrows0 : countRows db0 uid cid flag = 0)
    (sched : List Bool) (c : Conf)
    (h : raceInvP db0 uid cid flag n1 n2
      (challengesCompletedCount db0 uid + 1) c.db c.pc1 c.pc2) :
    raceInvP db0 uid cid flag n1 n2 (challengesCompletedCount db0 uid + 1)
      (sysRun ⟨uid, cid, flag, fl, n1⟩ ⟨uid, cid, flag, fl, n2⟩ c sched).db
      (sysRun ⟨uid, cid, flag, fl, n1⟩ ⟨uid, cid, flag, fl, n2⟩ c sched).pc1
      (sysRun ⟨uid, cid, flag, fl, n1⟩ ⟨uid, cid, flag, fl, n2⟩ c sched).pc2 := by
  induction sched generalizing c with
  | nil => exact h
  | cons a l ih =>
      refine ih (sysStep ⟨uid, cid, flag, fl, n1⟩ ⟨uid, cid, flag, fl, n2⟩ c a) ?_
      cases a
      · have h' := raceInvP_swap db0 uid cid flag n1 n2 _ c.db c.pc1 c.pc2 h
        have h'' := raceStep_preserves db0 uid cid flag fl n1 n2 hcorrect
          hprior hrows0 n2 (Or.inr rfl) c.db c.pc2 c.pc1 h'
        exact raceInvP_swap db0 uid cid flag n1 n2 _ _ _ _ h''
      · exact raceStep_preserves db0 uid cid flag fl n1 n2 hcorrect
          hprior hrows0 n1 (Or.inl rfl) c.db c.pc1 c.pc2 h

/-- After the forced completion suffix, both threads are finished. -/
theorem twoSubmissions_done (t1 t2 : SubTask) (db : DBState)
    (sched : List Bool) :
    ∃ r1 r2, (twoSubmissions t1 t2 db sched).pc1 = .done r1 ∧
      (twoSubmissions t1 t2 db sched).pc2 = .done r2 := by
  unfold twoSubmissions
  rw [sysRun_append]
  generalize sysRun t1 t2 ⟨db, .checkStep, .checkStep⟩ sched = c
  rw [show ([true, true, true, false, false, false] : List Bool) =
      [true, true, true] ++ [false, false, false] from rfl, sysRun_append,
    sysRun_three_true, sysRun_three_false]
  obtain ⟨r1, hr1⟩ := taskStep_three_done t1 c.db c.pc1
  obtain ⟨r2, hr2⟩ := taskStep_three_done t2
    (taskStep t1 (taskStep t1 (taskStep t1 (c.db, c.pc1)))).1 c.pc2
  exact ⟨r1, r2, by simpa using hr1, by simpa using hr2⟩

/-- With both threads finished, the invariant forces the claimed outcome:
one row for the submitted content, completion count bumped by exactly one. -/
theorem raceInv_final (db0 : DBState) (uid cid : Nat) (flag : String)
    (n1 n2 : Nat) (dbf : DBState) (r1 r2 : SubmitResult)
    (hrows0 : countRows db0 uid cid flag = 0)
    (hInv : raceInvP db0 uid cid flag n1 n2
      (challengesCompletedCount db0 uid + 1) dbf (.done r1) (.done r2)) :
    countRows dbf uid cid flag = 1 ∧
    (getStats dbf uid).map StatsRow.challenges_completed =
      some (challengesCompletedCount db0 uid + 1) := by
  obtain ⟨h1, _, h3, h4, h5⟩ := hInv
  have hcount : dbf.progress ≠ db0.progress → countRows dbf uid cid flag = 1 := by
    intro hne
    rcases h1 with hp | hp | hp
    · exact absurd hp hne
    · rw [countRows_congr dbf { db0 with progress :=
          db0.progress ++ [⟨uid, cid, flag, true, n1⟩] } uid cid flag
          (by simp [hp]), countRows_append_match, hrows0]
    · rw [countRows_congr dbf { db0 with progress :=
          db0.progress ++ [⟨uid, cid, flag, true, n2⟩] } uid cid flag
          (by simp [hp]), countRows_append_match, hrows0]
  cases r1 with
  | correct => exact ⟨hcount h3.1, h3.2⟩
  | already_completed =>
      have hp2 : passedPC (ThreadPC.done r2) :=
        (h5 h3).resolve_left (fun hfalse => hfalse)
      cases r2 with
      | correct => exact ⟨hcount h4.1, h4.2⟩
      | already_completed => exact hp2.elim
      | incorrect => exact h4.elim
      | error => exact h4.elim
  | incorrect => exact h3.elim
  | error => exact h3.elim

/-- C9: two interleaved submissions of the same correct text for the same
`(user, challenge)` pair — any interleaving of their atomic statements, each
then run to completion — leave exactly one Attempt row for that content and a
`challenges_completed` value of exactly `s0.challenges_completed + 1`: the
uniqueness conflict admits one insert and every statistics update recomputes
the count instead of blindly incrementing. -/
theorem race_one_row_one_increment (db0 : DBState) (uid cid : Nat)
    (flag : String) (fl : List String) (n1 n2 : Nat) (s0 : StatsRow)
    (sched : List Bool)
    (hcorrect : checkIsCorrect fl flag = true)
    (hprior : existingCorrect db0 uid cid = none)
    (hrows0 : countRows db0 uid cid flag = 0)
    (hstats0 : getStats db0 uid = some s0)
    (hinv0 : s0.challenges_completed = challengesCompletedCount db0 uid) :
    countRows (twoSubmissions ⟨uid, cid, flag, fl, n1⟩ ⟨uid, cid, flag, fl, n2⟩
      db0 sched).db uid cid flag = 1 ∧
    (getStats (twoSubmissions ⟨uid, cid, flag, fl, n1⟩ ⟨uid, cid, flag, fl, n2⟩
      db0 sched).db uid).map StatsRow.challenges_completed =
      some (s0.challenges_completed + 1) := by
  have hInit : raceInvP db0 uid cid flag n1 n2
      (challengesCompletedCount db0 uid + 1) db0 .checkStep .checkStep :=
    ⟨Or.inl rfl, by rw [hstats0]; rfl, trivial, trivial,
     fun hne => absurd rfl hne⟩
  obtain ⟨r1, r2, hpc1, hpc2⟩ := twoSubmissions_done
    ⟨uid, cid, flag, fl, n1⟩ ⟨uid, cid, flag, fl, n2⟩ db0 sched
  have hRun : raceInvP db0 uid cid flag n1 n2
      (challengesCompletedCount db0 uid + 1)
      (twoSubmissions ⟨uid, cid, flag, fl, n1⟩ ⟨uid, cid, flag, fl, n2⟩
        db0 sched).db
      (twoSubmissions ⟨uid, cid, flag, fl, n1⟩ ⟨uid, cid, flag, fl, n2⟩
        db0 sched).pc1
      (twoSubmissions ⟨uid, cid, flag, fl, n1⟩ ⟨uid, cid, flag, fl, n2⟩
        db0 sched).pc2 :=
    raceRun_preserves db0 uid cid flag fl n1 n2 hcorrect hprior hrows0
      (sched ++ [true, true, true, false, false, false])
      ⟨db0, .checkStep, .checkStep⟩ hInit
  rw [hpc1, hpc2] at hRun
  have hfin := raceInv_final db0 uid cid flag n1 n2 _ r1 r2 hrows0 hRun
  rw [hinv0]
  exact hfin

/-- Concrete instance of the C9 theorem on `dbReg` with the interleaving that
lets both threads pass their lookup before either inserts. -/
theorem race_one_row_one_increment_witness :
    countRows (twoSubmissions ⟨1, 0, "PFA", ["PFA"], 5⟩ ⟨1, 0, "PFA", ["PFA"], 6⟩
      dbReg [true, false]).db 1 0 "PFA" = 1 ∧
    (getStats (twoSubmissions ⟨1, 0, "PFA", ["PFA"], 5⟩ ⟨1, 0, "PFA", ["PFA"], 6⟩
      dbReg [true, false]).db 1).map StatsRow.challenges_completed = some 1 :=
  race_one_row_one_increment dbReg 1 0 "PFA" ["PFA"] 5 6
    { user_id := 1, challenges_completed := 0, total_attempts := 0,
      correct_attempts := 0, incorrect_attempts := 0, last_activity := 0,
      total_time_minutes := 0, average_attempts_per_challenge := 0 }
    [true, false] (by decide) (by decide) (by decide) (by decide) (by decide)
